import Mathlib

/-!
Verification of the SQL canonicalizer (`sql_canonicalizer.py`).

The engine is embedded shallowly: strings are `List Char`, each Python
`re.sub` / `re.finditer` call over the specific patterns of the source is
realised as an executable character-level scanner with the exact matching
semantics of the Python pattern (ordered alternation, greedy repetition
with backtracking where it can matter, `\b` word boundaries, `(?i)`
case-insensitivity), and the surrounding set/dict bookkeeping is realised
with insertion-ordered duplicate-free lists.
-/

set_option maxRecDepth 8000

namespace SqlCanon

/-- Characters counted as `\w` by the Python regexes (ASCII scope). -/
def isWordChar (c : Char) : Bool := c.isAlphanum || c = '_'

/-- The single-quote character `'`. -/
def squoteC : Char := Char.ofNat 39

/-- The double-quote character `"`. -/
def dquoteC : Char := Char.ofNat 34

/-- The backslash character `\`. -/
def backslashC : Char := Char.ofNat 92

/-- The newline character. -/
def newlineC : Char := Char.ofNat 10

/-- Characters counted as `\s` by Python regexes and by `str.strip()`:
space, tab, newline, carriage return, vertical tab, form feed. -/
def isSpaceChar (c : Char) : Bool :=
  c = ' ' || c = Char.ofNat 9 || c = newlineC || c = Char.ofNat 13 ||
  c = Char.ofNat 11 || c = Char.ofNat 12

/-! ## Segmenter: `_split_comments`

The Python function is a single left-to-right scan with booleans
`in_single` / `in_double` and two inner loops that consume a `--` line
comment or a `/* */` block comment.  The spec (§4.5) describes it as a
five-state machine `CODE / IN_SINGLE_QUOTE / IN_DOUBLE_QUOTE /
LINE_COMMENT / BLOCK_COMMENT`; we embed exactly that automaton.  `acc`
holds the characters of the segment currently being built, reversed. -/

inductive ScanState where
  | code | inSingle | inDouble | lineC | blockC
deriving DecidableEq

/-- A segment: `(is_comment, text)`. -/
abbrev Seg := Bool × List Char

/-- Emit the pending code span if it is nonempty (`if i > code_start`). -/
def flushCode (acc : List Char) : List Seg :=
  if acc.isEmpty then [] else [(false, acc.reverse)]

/-- The scan loop of `_split_comments`.

* `code`: `--` opens a line comment and `/*` a block comment (both need
  two remaining characters, `i + 2 <= n`); a quote switches into the
  corresponding quote state; anything else is accumulated.
* `inSingle`: a quote whose lookahead is not another quote closes the
  literal (`sql[i] == "'" and (i+1 >= n or sql[i+1] != "'")`, so a quote
  that is the final character also closes); a backslash skips the next
  character; otherwise one character is consumed (in particular the first
  quote of a doubled `''` is consumed without closing, and the second is
  then re-examined with its own lookahead).
* `inDouble`: symmetric.
* `lineC`: consume up to and including the newline, or to end of input.
* `blockC`: consume up to and including `*/`; an unterminated block
  comment (including a final lone character, the `i < n - 1` guard)
  runs to end of input and is still a comment. -/
def split_comments_loop : ScanState → List Char → List Char → List Seg
  | .code, [], acc => flushCode acc
  | .inSingle, [], acc => flushCode acc
  | .inDouble, [], acc => flushCode acc
  | .lineC, [], acc => [(true, acc.reverse)]
  | .blockC, [], acc => [(true, acc.reverse)]
  | .code, c1 :: c2 :: cs, acc =>
    if c1 = '-' ∧ c2 = '-' then
      flushCode acc ++ split_comments_loop .lineC cs [c2, c1]
    else if c1 = '/' ∧ c2 = '*' then
      flushCode acc ++ split_comments_loop .blockC cs [c2, c1]
    else if c1 = squoteC then split_comments_loop .inSingle (c2 :: cs) (c1 :: acc)
    else if c1 = dquoteC then split_comments_loop .inDouble (c2 :: cs) (c1 :: acc)
    else split_comments_loop .code (c2 :: cs) (c1 :: acc)
  | .code, [c1], acc =>
    if c1 = squoteC then split_comments_loop .inSingle [] (c1 :: acc)
    else if c1 = dquoteC then split_comments_loop .inDouble [] (c1 :: acc)
    else split_comments_loop .code [] (c1 :: acc)
  | .inSingle, c :: d :: cs2, acc =>
    if c = squoteC ∧ d ≠ squoteC then split_comments_loop .code (d :: cs2) (c :: acc)
    else if c = backslashC then split_comments_loop .inSingle cs2 (d :: c :: acc)
    else split_comments_loop .inSingle (d :: cs2) (c :: acc)
  | .inSingle, [c], acc =>
    if c = squoteC then split_comments_loop .code [] (c :: acc)
    else split_comments_loop .inSingle [] (c :: acc)
  | .inDouble, c :: d :: cs2, acc =>
    if c = dquoteC ∧ d ≠ dquoteC then split_comments_loop .code (d :: cs2) (c :: acc)
    else if c = backslashC then split_comments_loop .inDouble cs2 (d :: c :: acc)
    else split_comments_loop .inDouble (d :: cs2) (c :: acc)
  | .inDouble, [c], acc =>
    if c = dquoteC then split_comments_loop .code [] (c :: acc)
    else split_comments_loop .inDouble [] (c :: acc)
  | .lineC, c :: cs, acc =>
    if c = newlineC then (true, (c :: acc).reverse) :: split_comments_loop .code cs []
    else split_comments_loop .lineC cs (c :: acc)
  | .blockC, c1 :: c2 :: cs, acc =>
    if c1 = '*' ∧ c2 = '/' then
      (true, (c2 :: c1 :: acc).reverse) :: split_comments_loop .code cs []
    else split_comments_loop .blockC (c2 :: cs) (c1 :: acc)
  | .blockC, [c1], acc => split_comments_loop .blockC [] (c1 :: acc)

/-- `_split_comments`: split SQL into `(is_comment, text)` segments. -/
def split_comments (sql : List Char) : List Seg :=
  split_comments_loop .code sql []

/-- Concatenation of the texts of a segment list. -/
def segJoin (segs : List Seg) : List Char :=
  (segs.map (fun s => s.2)).flatten

/-! ## Regex substitution engine

Each `re.sub` of the source is realised as a scanner with a per-position
match attempt.  For the patterns of this file the only place where
regex backtracking can change the result (rather than merely fail) is
the quoted-string body `([^']|'')*` and the optional parts of the
numeric pattern; those are modelled explicitly below. -/

/-- `String.data` shorthand for embedding string constants. -/
def lit (s : String) : List Char := s.data

/-- One `re.sub` match attempt at the current position.  Arguments: does a
word character precede this position (for `\b`), and the remaining input.
Returns `(replacement, whether the last matched character is a word
character, rest of the input after the match)`. -/
abbrev Matcher := Bool → List Char → Option (List Char × Bool × List Char)

/-- `re.sub` driver: scan left to right, at each position attempt the
match; on success emit the replacement and continue after the matched
text, otherwise emit the character and move on.  `fuel` only forces
structural termination; callers pass `length + 1`, which suffices because
every matcher here consumes at least one character. -/
def subScan (m : Matcher) : Nat → Bool → List Char → List Char
  | 0, _, l => l
  | _ + 1, _, [] => []
  | fuel + 1, prevW, c :: cs =>
    match m prevW (c :: cs) with
    | some (repl, lastW, rest) => repl ++ subScan m fuel lastW rest
    | none => c :: subScan m fuel (isWordChar c) cs

/-- Run a substitution over a whole string (scan starts with no preceding
word character). -/
def subst (m : Matcher) (l : List Char) : List Char :=
  subScan m (l.length + 1) false l

/-- Word-boundary test *after* a match: `\b` holds between the last
matched character (word-ness `lastW`) and the rest of the input (end of
input counts as a non-word character). -/
def wordBoundary (lastW : Bool) (rest : List Char) : Bool :=
  lastW != (match rest with | [] => false | c :: _ => isWordChar c)

/-- Case-insensitive literal prefix match (for `(?i)` patterns); returns
the rest of the input. -/
def dropCI : List Char → List Char → Option (List Char)
  | [], l => some l
  | _ :: _, [] => none
  | p :: ps, c :: cs => if c.toLower = p.toLower then dropCI ps cs else none

/-- Case-sensitive literal prefix match; returns the rest of the input. -/
def dropLit : List Char → List Char → Option (List Char)
  | [], l => some l
  | _ :: _, [] => none
  | p :: ps, c :: cs => if c = p then dropLit ps cs else none

/-- `\s*`: greedy whitespace (deterministic for the patterns used here,
since what follows is never a whitespace character). -/
def dropSpaces0 (l : List Char) : List Char := l.dropWhile isSpaceChar

/-- `\s+`: at least one whitespace character, then greedy. -/
def dropSpaces1 : List Char → Option (List Char)
  | [] => none
  | c :: cs => if isSpaceChar c then some (cs.dropWhile isSpaceChar) else none

/-- Body-and-close of the single-quoted pattern `'([^']|'')*'`, entered
after the opening quote, with Python's greedy/backtracking semantics: at
a quote the alternation prefers the doubled-quote continuation `''`; if
no closing quote is ever found that way, it backtracks and the first
quote of the pair closes the literal.  Returns the input remaining after
the closing quote. -/
def matchStrTail : List Char → Option (List Char)
  | [] => none
  | c :: rest =>
    if c = squoteC then
      match rest with
      | d :: rest2 =>
        if d = squoteC then
          match matchStrTail rest2 with
          | some r => some r
          | none => some rest
        else some rest
      | [] => some rest
    else matchStrTail rest

/-- Body-and-close of the double-quoted pattern `"([^"\\]|\\.)*"`: a
backslash escapes any character except newline (`.` does not match a
newline); a lone final backslash or a backslash-newline aborts the whole
match (no alternative remains). -/
def matchDqTail : List Char → Option (List Char)
  | [] => none
  | c :: rest =>
    if c = dquoteC then some rest
    else if c = backslashC then
      match rest with
      | [] => none
      | d :: rest2 => if d = newlineC then none else matchDqTail rest2
    else matchDqTail rest

/-- The four date-literal keywords, in the pattern's alternation order
`DATE|TIMESTAMP|TIME|INTERVAL`. -/
def dateKeywords : List (List Char) :=
  [lit "DATE", lit "TIMESTAMP", lit "TIME", lit "INTERVAL"]

/-- Try the date-pattern alternation: keyword (case-insensitive), `\s*`,
then a complete single-quoted literal; on failure of the tail, the next
alternative keyword is tried at the same position. -/
def tryDateKw : List (List Char) → List Char → Option (List Char)
  | [], _ => none
  | kw :: kws, l =>
    match dropCI kw l with
    | some r1 =>
      match dropSpaces0 r1 with
      | c :: r2 =>
        if c = squoteC then
          match matchStrTail r2 with
          | some r3 => some r3
          | none => tryDateKw kws l
        else tryDateKw kws l
      | [] => tryDateKw kws l
    | none => tryDateKw kws l

/-- Matcher for `(?i)\b(DATE|TIMESTAMP|TIME|INTERVAL)\s*'([^']|'')*'`
with replacement `repl` (`DATE` in generic mode, `date` in BIRD mode). -/
def dateMatcher (repl : List Char) : Matcher := fun prevW l =>
  if prevW then none
  else
    match tryDateKw dateKeywords l with
    | some r => some (repl, false, r)
    | none => none

/-- Matcher for `'([^']|'')*'` with replacement `repl`. -/
def strMatcher (repl : List Char) : Matcher := fun _ l =>
  match l with
  | c :: cs =>
    if c = squoteC then (matchStrTail cs).map (fun r => (repl, false, r)) else none
  | [] => none

/-- Matcher for `"([^"\\]|\\.)*"` with replacement `repl`. -/
def dqMatcher (repl : List Char) : Matcher := fun _ l =>
  match l with
  | c :: cs =>
    if c = dquoteC then (matchDqTail cs).map (fun r => (repl, false, r)) else none
  | [] => none

/-- The optional exponent `([eE][-+]?\d+)?` of the numeric patterns:
`e`/`E`, optional sign, then at least one digit (greedy). -/
def expTry : List Char → Option (List Char)
  | c :: cs =>
    if c = 'e' ∨ c = 'E' then
      let afterSign :=
        match cs with
        | s :: cs2 => if s = '+' ∨ s = '-' then cs2 else cs
        | [] => cs
      let p := afterSign.span Char.isDigit
      if p.1.isEmpty then none else some p.2
    else none
  | [] => none

/-- Matcher for `\b\d+\.?\d*([eE][-+]?\d+)?\b` with replacement `repl`.
Backtracking order of the optional parts (greedy, rightmost varies
first): with dot, maximal `\d*`, exponent; with dot, maximal `\d*`, no
exponent; with dot, *empty* `\d*` (the match then ends at the dot, whose
boundary against a following digit holds); without dot, exponent;
without dot, no exponent — each candidate must end at a word boundary.
Intermediate lengths of `\d+`/`\d*` never yield new matches (the next
character would be a digit, failing both the following token and `\b`). -/
def numMatcher (repl : List Char) : Matcher := fun prevW l =>
  match l with
  | c :: _ =>
    if prevW ∨ ¬c.isDigit then none
    else
      let p1 := l.span Char.isDigit
      let noDot :=
        match expTry p1.2 with
        | some r4 =>
          if wordBoundary true r4 then some (repl, true, r4)
          else if wordBoundary true p1.2 then some (repl, true, p1.2) else none
        | none => if wordBoundary true p1.2 then some (repl, true, p1.2) else none
      match p1.2 with
      | '.' :: r2 =>
        let p2 := r2.span Char.isDigit
        let lastW3 := !p2.1.isEmpty
        let emptyD2 :=
          if ¬p2.1.isEmpty ∧ wordBoundary false r2 then some (repl, false, r2)
          else noDot
        let withDotNoExp :=
          if wordBoundary lastW3 p2.2 then some (repl, lastW3, p2.2) else none
        (match expTry p2.2 with
        | some r4 =>
          if wordBoundary true r4 then some (repl, true, r4)
          else
            match withDotNoExp with
            | some res => some res
            | none => emptyD2
        | none =>
          match withDotNoExp with
          | some res => some res
          | none => emptyD2)
      | _ => noDot
  | [] => none

/-- Matcher for `\b\.\d+([eE][-+]?\d+)?\b` with replacement `repl`.  The
leading `\b` sits between the preceding character and the non-word `.`,
so it requires a *word* character before the dot. -/
def num2Matcher (repl : List Char) : Matcher := fun prevW l =>
  match l with
  | c :: cs =>
    if c = '.' ∧ prevW then
      let p := cs.span Char.isDigit
      if p.1.isEmpty then none
      else
        match expTry p.2 with
        | some r4 =>
          if wordBoundary true r4 then some (repl, true, r4)
          else if wordBoundary true p.2 then some (repl, true, p.2) else none
        | none => if wordBoundary true p.2 then some (repl, true, p.2) else none
    else none
  | [] => none

/-- `_replace_literals`: date/timestamp literals → `DATE`, quoted strings
→ `STR`, numbers → `NUM`, in the source's substitution order. -/
def replace_literals (sql : List Char) : List Char :=
  let o1 := subst (dateMatcher (lit "DATE")) sql
  let o2 := subst (strMatcher (lit "STR")) o1
  let o3 := subst (dqMatcher (lit "STR")) o2
  let o4 := subst (numMatcher (lit "NUM")) o3
  subst (num2Matcher (lit "NUM")) o4

/-! ## Boolean column references and BIRD literal replacement -/

/-- A per-database schema: `(table_name, column_name) → type`, as an
insertion-ordered association list (Python dict). -/
abbrev Schema := List ((List Char × List Char) × List Char)

/-- Append if absent: the insertion-ordered model of `set.add`. -/
def addUnique (x : List Char) (l : List (List Char)) : List (List Char) :=
  if l.contains x then l else l ++ [x]

/-- Stable insertion into a length-descending list (earlier elements stay
before later ones of equal length, like Python's stable
`sorted(key=len, reverse=True)`). -/
def insertLenDesc (x : List Char) : List (List Char) → List (List Char)
  | [] => [x]
  | y :: ys => if y.length ≤ x.length then x :: y :: ys else y :: insertLenDesc x ys

/-- Stable sort by length, longest first. -/
def sortLenDesc (l : List (List Char)) : List (List Char) :=
  l.foldr insertLenDesc []

/-- `typ.lower() in ("boolean", "bool")`. -/
def isBoolType (t : List Char) : Bool :=
  t.map Char.toLower = lit "boolean" || t.map Char.toLower = lit "bool"

/-- The boolean-typed entries of a schema (the entries the
`if typ.lower() not in ("boolean", "bool"): continue` loops keep). -/
def booleanEntries (schema : Schema) : Schema :=
  schema.filter (fun e => isBoolType e.2)

/-- `_build_boolean_col_refs`: the textual forms denoting a boolean
column — `table.col`, `alias.col` for every alias of the table, and the
bare column name when its table occurs in the query — sorted longest
first.  The Python `for ... if typ not boolean: continue` loops are the
folds over the boolean-typed entries. -/
def build_boolean_col_refs (schema : Schema) (tables : List (List Char))
    (alias_to_table : List (List Char × List Char)) : List (List Char) :=
  let boolCols := booleanEntries schema
  let refs1 := boolCols.foldl (fun acc e =>
    let acc := addUnique (e.1.1 ++ '.' :: e.1.2) acc
    alias_to_table.foldl (fun a2 p =>
      if p.2 = e.1.1 then addUnique (p.1 ++ '.' :: e.1.2) a2 else a2) acc) []
  let refs2 := boolCols.foldl (fun acc e =>
    if tables.contains e.1.1 then addUnique e.1.2 acc else acc) refs1
  sortLenDesc refs2

/-- Word-ness of the last character of a (nonempty) reference. -/
def lastCharW (ref : List Char) : Bool := isWordChar (ref.getLastD ' ')

/-- Matcher for `\b{ref}\s*=\s*(\d+)\b` → `{ref} = boolean`. -/
def boolRefAMatcher (ref : List Char) : Matcher := fun prevW l =>
  if ref.isEmpty ∨ ¬wordBoundary prevW l then none
  else
    match dropLit ref l with
    | none => none
    | some r1 =>
      match dropSpaces0 r1 with
      | c :: r2 =>
        if c = '=' then
          let p := (dropSpaces0 r2).span Char.isDigit
          if p.1.isEmpty then none
          else if wordBoundary true p.2 then some (ref ++ lit " = boolean", true, p.2)
          else none
        else none
      | [] => none

/-- Matcher for `\b{ref}\s*=\s*'([^']|'')*'` → `{ref} = boolean`. -/
def boolRefBMatcher (ref : List Char) : Matcher := fun prevW l =>
  if ref.isEmpty ∨ ¬wordBoundary prevW l then none
  else
    match dropLit ref l with
    | none => none
    | some r1 =>
      match dropSpaces0 r1 with
      | c :: r2 =>
        if c = '=' then
          match dropSpaces0 r2 with
          | q :: r3 =>
            if q = squoteC then
              (matchStrTail r3).map (fun r => (ref ++ lit " = boolean", false, r))
            else none
          | [] => none
        else none
      | [] => none

/-- Matcher for `\b(\d+)\s*=\s*{ref}\b` → `boolean = {ref}`. -/
def boolRefCMatcher (ref : List Char) : Matcher := fun prevW l =>
  match l with
  | c :: _ =>
    if ref.isEmpty ∨ prevW ∨ ¬c.isDigit then none
    else
      let p := l.span Char.isDigit
      match dropSpaces0 p.2 with
      | e :: r2 =>
        if e = '=' then
          match dropLit ref (dropSpaces0 r2) with
          | some rest =>
            if wordBoundary (lastCharW ref) rest then
              some (lit "boolean = " ++ ref, lastCharW ref, rest)
            else none
          | none => none
        else none
      | [] => none
  | [] => none

/-- Matcher for `'([^']|'')*'\s*=\s*{ref}\b` → `boolean = {ref}`. -/
def boolRefDMatcher (ref : List Char) : Matcher := fun _ l =>
  match l with
  | q :: r1 =>
    if ref.isEmpty ∨ q ≠ squoteC then none
    else
      match matchStrTail r1 with
      | none => none
      | some r2 =>
        match dropSpaces0 r2 with
        | e :: r3 =>
          if e = '=' then
            match dropLit ref (dropSpaces0 r3) with
            | some rest =>
              if wordBoundary (lastCharW ref) rest then
                some (lit "boolean = " ++ ref, lastCharW ref, rest)
              else none
            | none => none
          else none
        | [] => none
  | [] => none

/-- `_replace_literals_bird`: first the boolean-comparison rewrites, one
reference at a time in the sorted order with the source's four patterns
applied in sequence, then the generic lowercase literal replacements. -/
def replace_literals_bird (sql : List Char) (boolean_col_refs : List (List Char)) :
    List Char :=
  let o0 := boolean_col_refs.foldl (fun o ref =>
    subst (boolRefDMatcher ref)
      (subst (boolRefCMatcher ref)
        (subst (boolRefBMatcher ref)
          (subst (boolRefAMatcher ref) o)))) sql
  let o1 := subst (dateMatcher (lit "date")) o0
  let o2 := subst (strMatcher (lit "string")) o1
  let o3 := subst (dqMatcher (lit "string")) o2
  let o4 := subst (numMatcher (lit "num")) o3
  subst (num2Matcher (lit "num")) o4

/-! ## Identifier collection: `_collect_identifiers_regex` -/

/-- `re.finditer` driver: non-overlapping matches, scanning left to
right, continuing after the end of each match. -/
def findScan {α : Type} (m : Bool → List Char → Option (α × Bool × List Char)) :
    Nat → Bool → List Char → List α
  | 0, _, _ => []
  | _ + 1, _, [] => []
  | fuel + 1, prevW, c :: cs =>
    match m prevW (c :: cs) with
    | some (a, lastW, rest) => a :: findScan m fuel lastW rest
    | none => findScan m fuel (isWordChar c) cs

def findAll {α : Type} (m : Bool → List Char → Option (α × Bool × List Char))
    (l : List Char) : List α :=
  findScan m (l.length + 1) false l

/-- `_is_numeric_token`: `w.isdigit()` or `float(w)` parses.  For the
`\w+` tokens this is called on, `float` accepts digit groups with single
underscores between digits, an optional `e`/`E` exponent part of the
same shape, and the special spellings `inf`/`infinity`/`nan`. -/
def digitsGroup (l : List Char) : Bool :=
  ¬l.isEmpty && (l.splitOn '_').all (fun g => ¬g.isEmpty && g.all Char.isDigit)

def is_numeric_token (w : List Char) : Bool :=
  let lw := w.map Char.toLower
  ¬w.isEmpty &&
    (w.all Char.isDigit ||
      lw = lit "inf" || lw = lit "infinity" || lw = lit "nan" ||
      (match lw.splitOn 'e' with
       | [m] => digitsGroup m
       | [m, ex] => digitsGroup m && digitsGroup ex
       | _ => false))

/-- Keywords rejected as table aliases (`not_table_alias_kw`). -/
def not_table_alias_kw : List (List Char) :=
  List.map lit ["ON", "USING", "WHERE", "LEFT", "RIGHT", "INNER", "OUTER", "CROSS",
    "JOIN", "GROUP", "ORDER", "HAVING", "LIMIT", "OFFSET", "AND", "OR", "BY",
    "SELECT", "FROM", "AS", "WITH", "END", "THEN", "ELSE", "WHEN", "NULL",
    "TRUE", "FALSE"]

/-- Keywords rejected as column aliases (`col_alias_kw`). -/
def col_alias_kw : List (List Char) :=
  List.map lit ["SELECT", "FROM", "WHERE", "GROUP", "ORDER", "BY", "HAVING", "ON",
    "AND", "OR", "END", "THEN", "ELSE", "WHEN", "NULL", "TRUE", "FALSE", "WITH",
    "AS", "DISTINCT", "FILTER", "WITHIN", "OVER", "PARTITION", "BETWEEN", "LIKE",
    "IN", "IS", "NOT", "EXISTS", "CASE", "ASC", "DESC", "LIMIT", "OFFSET"]

/-- Qualifiers whose qualified column is not collected (line 238). -/
def qual_col_excl : List (List Char) :=
  List.map lit ["ON", "BY", "AND", "OR", "SELECT", "FROM"]

/-- Qualifiers never inferred as table aliases (lines 240–243). -/
def qual_alias_excl : List (List Char) :=
  List.map lit ["NUM", "STR", "DATE", "GROUP", "ORDER", "WITHIN", "OVER",
    "PARTITION", "BETWEEN", "LIKE", "IN", "IS", "NOT", "EXISTS", "CASE", "THEN",
    "ELSE", "WHEN", "END", "TRUE", "FALSE", "NULL"]

/-- `placeholder_keywords` of the source (checked against `w.upper()`). -/
def placeholder_keywords : List (List Char) :=
  List.map lit ["NUM", "STR", "DATE", "TABLE_NAME", "COL_NAME",
    "TABLE_ALIAS_PLACEHOLDER0", "TABLE_ALIAS_PLACEHOLDER1", "TABLE_ALIAS_PLACEHOLDER2",
    "COL_ALIAS_PLACEHOLDER0", "COL_ALIAS_PLACEHOLDER1", "COL_ALIAS_PLACEHOLDER2",
    "num", "string", "date", "boolean",
    "table_alias0", "table_alias1", "table_alias2",
    "column_alias0", "column_alias1", "column_alias2"]

/-- The keyword denylist of the word loop (`keywords`, line 260), the
union of standard keywords/functions with `placeholder_keywords`. -/
def keywords_all : List (List Char) :=
  List.map lit ["SELECT", "FROM", "WHERE", "GROUP", "BY", "ORDER", "HAVING", "ON",
    "AND", "OR", "JOIN", "LEFT", "RIGHT", "INNER", "OUTER", "CROSS", "FULL", "AS",
    "DISTINCT", "NULL", "TRUE", "FALSE", "BETWEEN", "LIKE", "IN", "IS", "NOT",
    "EXISTS", "CASE", "WHEN", "THEN", "ELSE", "END", "ASC", "DESC", "LIMIT",
    "OFFSET", "WITH", "FILTER", "WITHIN", "OVER", "PARTITION", "RANGE", "ROWS",
    "USING", "TABLE", "INTO", "UPDATE", "SET", "VALUES", "INSERT", "DELETE",
    "CREATE", "ALTER", "DROP", "INDEX", "PRIMARY", "KEY", "REFERENCES",
    "COUNT", "SUM", "AVG", "MIN", "MAX", "STDDEV", "PERCENTILE_CONT",
    "ABS", "ROUND", "STRING_AGG", "JSON_BUILD_OBJECT", "JSON_OBJECT_AGG",
    "COALESCE", "NULLIF", "CAST", "EXTRACT", "UNNEST", "ARRAY",
    "SUBSTR", "SUBSTRING", "STRFTIME", "LENGTH", "CONCAT",
    "REPLACE", "TRIM", "UPPER", "LOWER", "INSTR", "DATE", "YEAR", "MONTH",
    "LATERAL", "UNION", "EXCEPT", "INTERSECT", "ALL", "ANY",
    "SIGNAL", "NOISE", "SNQI", "SSM", "TOLS", "MCS", "RPI", "BFR", "LIF",
    "CCS", "CIP"] ++ placeholder_keywords

def upperStr (w : List Char) : List Char := w.map Char.toUpper

/-- `re.match(r"^{base}\d+$", w, re.I)`: `base` prefix (case-insensitive)
followed by one or more digits. -/
def isPlaceholderName (base : List Char) (w : List Char) : Bool :=
  match dropCI base w with
  | some rest => ¬rest.isEmpty && rest.all Char.isDigit
  | none => false

/-- The join-keyword alternation of the `FROM/JOIN` patterns, in the
pattern's order `FROM|JOIN|INNER\s+JOIN|LEFT\s+JOIN|RIGHT\s+JOIN|
FULL\s+JOIN|CROSS\s+JOIN|OUTER\s+JOIN` (no leading `\b`, as in the
source). -/
def joinKwAlts : List (List (List Char)) :=
  [[lit "FROM"], [lit "JOIN"], [lit "INNER", lit "JOIN"], [lit "LEFT", lit "JOIN"],
   [lit "RIGHT", lit "JOIN"], [lit "FULL", lit "JOIN"], [lit "CROSS", lit "JOIN"],
   [lit "OUTER", lit "JOIN"]]

/-- Match a sequence of case-insensitive keywords separated by `\s+`. -/
def matchKwSeq : List (List Char) → List Char → Option (List Char)
  | [], l => some l
  | [kw], l => dropCI kw l
  | kw :: kws, l =>
    match dropCI kw l with
    | some r =>
      match dropSpaces1 r with
      | some r2 => matchKwSeq kws r2
      | none => none
    | none => none

/-- Ordered alternation over the join keywords. -/
def tryJoinKw : List (List (List Char)) → List Char → Option (List Char)
  | [], _ => none
  | alt :: alts, l =>
    match matchKwSeq alt l with
    | some r => some r
    | none => tryJoinKw alts l

/-- One alternative `\s+KW` of the clause lookahead. -/
def lookKw (kw : List Char) (l : List Char) : Bool :=
  match dropSpaces1 l with
  | some r => (dropCI kw r).isSome
  | none => false

/-- One alternative `\s*c` of the clause lookahead. -/
def lookSym (c : Char) (l : List Char) : Bool :=
  match dropSpaces0 l with
  | d :: _ => d = c
  | [] => false

/-- `\s*$` (Python `$`: end of string, possibly after trailing
whitespace; with greedy `\s*` this is "only whitespace remains"). -/
def lookEnd (l : List Char) : Bool := l.all isSpaceChar

/-- The clause-terminator lookahead of the `FROM/JOIN` patterns. -/
def lookaheadOk (l : List Char) : Bool :=
  lookKw (lit "ON") l || lookKw (lit "USING") l || lookSym ')' l || lookSym ',' l ||
  lookKw (lit "GROUP") l || lookKw (lit "ORDER") l || lookKw (lit "WHERE") l ||
  lookKw (lit "HAVING") l || lookKw (lit "LIMIT") l || lookKw (lit "OFFSET") l ||
  lookSym ';' l || lookKw (lit "JOIN") l || lookKw (lit "LEFT") l ||
  lookKw (lit "INNER") l || lookKw (lit "RIGHT") l || lookKw (lit "CROSS") l ||
  lookKw (lit "FULL") l || lookKw (lit "OUTER") l || lookEnd l

/-- `(?i)\bWITH\s+(\w+)\s+AS\s+` (CTE names). -/
def cteAt : Bool → List Char → Option (List Char × Bool × List Char) := fun prevW l =>
  if prevW then none
  else
    match dropCI (lit "WITH") l with
    | none => none
    | some r1 =>
      match dropSpaces1 r1 with
      | none => none
      | some r2 =>
        let p := r2.span isWordChar
        if p.1.isEmpty then none
        else
          match dropSpaces1 p.2 with
          | none => none
          | some r3 =>
            match dropCI (lit "AS") r3 with
            | none => none
            | some r4 =>
              match dropSpaces1 r4 with
              | none => none
              | some r5 => some (p.1, false, r5)

/-- `(?i)(FROM|JOIN|...)\s+(\w+)\s+AS\s+(\w+)` with the clause
lookahead: table plus explicit alias.  Maximal `\w+` captures are the
only candidates: any shorter capture leaves a word character where the
following `\s`/lookahead alternative requires none. -/
def fromJoinWithAsAt : Bool → List Char →
    Option ((List Char × List Char) × Bool × List Char) := fun _ l =>
  match tryJoinKw joinKwAlts l with
  | none => none
  | some r1 =>
    match dropSpaces1 r1 with
    | none => none
    | some r2 =>
      let pt := r2.span isWordChar
      if pt.1.isEmpty then none
      else
        match dropSpaces1 pt.2 with
        | none => none
        | some r3 =>
          match dropCI (lit "AS") r3 with
          | none => none
          | some r4 =>
            match dropSpaces1 r4 with
            | none => none
            | some r5 =>
              let pa := r5.span isWordChar
              if pa.1.isEmpty then none
              else if lookaheadOk pa.2 then some ((pt.1, pa.1), true, pa.2)
              else none

/-- `(?i)(FROM|JOIN|...)\s+(\w+)(?:\s+(\w+))` with the clause lookahead:
table plus implicit (no-`AS`) alias candidate. -/
def fromJoinNoAsAt : Bool → List Char →
    Option ((List Char × List Char) × Bool × List Char) := fun _ l =>
  match tryJoinKw joinKwAlts l with
  | none => none
  | some r1 =>
    match dropSpaces1 r1 with
    | none => none
    | some r2 =>
      let pt := r2.span isWordChar
      if pt.1.isEmpty then none
      else
        match dropSpaces1 pt.2 with
        | none => none
        | some r3 =>
          let pa := r3.span isWordChar
          if pa.1.isEmpty then none
          else if lookaheadOk pa.2 then some ((pt.1, pa.1), true, pa.2)
          else none

/-- `(?i)(FROM|JOIN|...)\s+(\w+)` with the clause lookahead: table with
no trailing token. -/
def fromJoinTableOnlyAt : Bool → List Char →
    Option (List Char × Bool × List Char) := fun _ l =>
  match tryJoinKw joinKwAlts l with
  | none => none
  | some r1 =>
    match dropSpaces1 r1 with
    | none => none
    | some r2 =>
      let pt := r2.span isWordChar
      if pt.1.isEmpty then none
      else if lookaheadOk pt.2 then some (pt.1, true, pt.2)
      else none

/-- `(?i)\bAS\s+(\w+)(?:\s*[,\)]|\s+[A-Z_]|\s*$)` (column-alias
candidates).  The terminator group *consumes*; under `(?i)` the class
`[A-Z_]` also matches lowercase letters. -/
def asAliasAt : Bool → List Char → Option (List Char × Bool × List Char) := fun prevW l =>
  if prevW then none
  else
    match dropCI (lit "AS") l with
    | none => none
    | some r1 =>
      match dropSpaces1 r1 with
      | none => none
      | some r2 =>
        let pa := r2.span isWordChar
        if pa.1.isEmpty then none
        else
          match dropSpaces0 pa.2 with
          | c :: r4 =>
            if c = ',' ∨ c = ')' then some (pa.1, false, r4)
            else
              match dropSpaces1 pa.2 with
              | some (d :: r5) =>
                if d.isAlpha ∨ d = '_' then some (pa.1, true, r5)
                else if lookEnd pa.2 then some (pa.1, false, []) else none
              | _ => if lookEnd pa.2 then some (pa.1, false, []) else none
          | [] => if lookEnd pa.2 then some (pa.1, false, []) else none

/-- `\b(\w+)\.(\w+)\b` (qualified column references). -/
def qualifiedAt : Bool → List Char →
    Option ((List Char × List Char) × Bool × List Char) := fun prevW l =>
  match l with
  | c :: _ =>
    if prevW ∨ ¬isWordChar c then none
    else
      let p1 := l.span isWordChar
      match p1.2 with
      | d :: r2 =>
        if d = '.' then
          let p2 := r2.span isWordChar
          if p2.1.isEmpty then none else some ((p1.1, p2.1), true, p2.2)
        else none
      | [] => none
  | [] => none

/-- `\b(\w+)\b`: maximal word-character runs. -/
def wordAt : Bool → List Char → Option (List Char × Bool × List Char) := fun prevW l =>
  match l with
  | c :: _ =>
    if prevW ∨ ¬isWordChar c then none
    else
      let p := l.span isWordChar
      some (p.1, true, p.2)
  | [] => none

/-- The result of `_collect_identifiers_regex`. -/
structure CollectResult where
  tables : List (List Char)
  table_alias_order : List (List Char)
  col_alias_order : List (List Char)
  columns : List (List Char)
  alias_to_table : List (List Char × List Char)
deriving DecidableEq, Repr

/-- Accumulator during table/alias collection. -/
structure TablesAcc where
  tables : List (List Char)
  alias_to_table : List (List Char × List Char)
  order : List (List Char)

/-- Association-list update with dict semantics: overwrite the value in
place, or append a new binding. -/
def alistUpsert : List (List Char × List Char) → List Char → List Char →
    List (List Char × List Char)
  | [], k, v => [(k, v)]
  | (k0, v0) :: rest, k, v =>
    if k0 = k then (k0, v) :: rest else (k0, v0) :: alistUpsert rest k v

def alistLookup : List (List Char × List Char) → List Char → Option (List Char)
  | [], _ => none
  | (k0, v0) :: rest, k => if k0 = k then some v0 else alistLookup rest k

def alistContains (m : List (List Char × List Char)) (k : List Char) : Bool :=
  (alistLookup m k).isSome

/-- `_collect_identifiers_regex`: CTE names, `FROM/JOIN` tables and
aliases (explicit `AS` matches processed before implicit ones), column
aliases, qualified references (whose unknown qualifiers are inferred as
extra table aliases), and the keyword-filtered word loop.  Sets and
dicts of the source are insertion-ordered lists. -/
def collect_identifiers_regex (sql : List Char) (raw_sql : Bool) : CollectResult :=
  let cteNames := findAll cteAt sql
  let withAsMs := findAll fromJoinWithAsAt sql
  let noAsMs := findAll fromJoinNoAsAt sql
  let tblOnlyMs := findAll fromJoinTableOnlyAt sql
  let asAliasMs := findAll asAliasAt sql
  let qualMs := findAll qualifiedAt sql
  let wordMs := findAll wordAt sql
  let tables0 := cteNames.foldl (fun acc t => addUnique t acc) []
  let acc1 := withAsMs.foldl (fun b m =>
    let b := { b with tables := addUnique m.1 b.tables }
    if not_table_alias_kw.contains (upperStr m.2) then b
    else { b with alias_to_table := alistUpsert b.alias_to_table m.2 m.1,
                  order := addUnique m.2 b.order })
    (⟨tables0, [], []⟩ : TablesAcc)
  let acc2 := noAsMs.foldl (fun b m =>
    let b := { b with tables := addUnique m.1 b.tables }
    if upperStr m.2 = lit "AS" ∨ not_table_alias_kw.contains (upperStr m.2) then b
    else { b with alias_to_table := alistUpsert b.alias_to_table m.2 m.1,
                  order := addUnique m.2 b.order }) acc1
  let acc3 := tblOnlyMs.foldl (fun b t => { b with tables := addUnique t b.tables }) acc2
  let col_alias_order := asAliasMs.foldl (fun co a =>
    if col_alias_kw.contains (upperStr a) then co
    else if acc3.order.contains a then co
    else addUnique a co) []
  let step4 := qualMs.foldl (fun (p : TablesAcc × List (List Char)) m =>
    let cols := if qual_col_excl.contains (upperStr m.1) then p.2 else addUnique m.2 p.2
    let b := p.1
    let b :=
      if ¬b.order.contains m.1 ∧ ¬b.tables.contains m.1 ∧
          ¬qual_alias_excl.contains (upperStr m.1) then
        { b with order := addUnique m.1 b.order }
      else b
    (b, cols)) (acc3, [])
  let acc4 := step4.1
  let columns := wordMs.foldl (fun cols w =>
    if keywords_all.contains (upperStr w) then cols
    else if acc4.tables.contains w ∨ acc4.order.contains w ∨
        col_alias_order.contains w then cols
    else if isPlaceholderName (lit "table_alias_placeholder") w ∨
        isPlaceholderName (lit "col_alias_placeholder") w then cols
    else if w = lit "table_name" ∨ w = lit "col_name" then cols
    else if w = lit "NUM" ∨ w = lit "STR" ∨ w = lit "DATE" ∨ w = lit "num" ∨
        w = lit "string" ∨ w = lit "date" ∨ w = lit "boolean" then cols
    else if raw_sql ∧ is_numeric_token w then cols
    else addUnique w cols) step4.2
  ⟨acc4.tables, acc4.order, col_alias_order, columns, acc4.alias_to_table⟩

/-- `{a: f"{base}{i}" for i, a in enumerate(order)}`. -/
def numbered (base : String) (order : List (List Char)) :
    List (List Char × List Char) :=
  order.enum.map (fun p => (p.2, lit base ++ (Nat.repr p.1).data))

/-! ## `_apply_identifier_replacements` -/

/-- Matcher for `\b{name}\b` → `repl` (for the `\w+` identifiers this is
applied to, the leading `\b` is "no preceding word character"). -/
def wordSubMatcher (name repl : List Char) : Matcher := fun prevW l =>
  if name.isEmpty ∨ prevW then none
  else
    match dropLit name l with
    | some rest => if wordBoundary true rest then some (repl, true, rest) else none
    | none => none

/-- Matcher for `\.{name}\b` → `.{repl}` (no boundary before the dot). -/
def dotSubMatcher (name repl : List Char) : Matcher := fun _ l =>
  match l with
  | c :: cs =>
    if c = '.' ∧ ¬name.isEmpty then
      match dropLit name cs with
      | some rest =>
        if wordBoundary true rest then some ('.' :: repl, true, rest) else none
      | none => none
    else none
  | [] => none

/-- Matcher for `\b{qual}\.{col}\b` → `repl` (schema-qualified rewrite). -/
def qualSubMatcher (qual col repl : List Char) : Matcher := fun prevW l =>
  if qual.isEmpty ∨ col.isEmpty ∨ prevW then none
  else
    match dropLit qual l with
    | some r1 =>
      match r1 with
      | c :: r2 =>
        if c = '.' then
          match dropLit col r2 with
          | some rest =>
            if wordBoundary true rest then some (repl, true, rest) else none
          | none => none
        else none
      | [] => none
    | none => none

/-- Distinct types the schema assigns to column name `c`
(`col_to_types[c]`, deduplicated in first-appearance order). -/
def schemaColTypes (schema : Schema) (c : List Char) : List (List Char) :=
  (schema.filter (fun e => e.1.2 = c)).foldl (fun acc e => addUnique e.2 acc) []

/-- The unqualified columns the schema phase rewrites, with their types:
those of `columns` (scanned longest first) carrying exactly one type
across the whole schema (`len(col_to_types[col]) == 1`). -/
def schemaReplacedCols (schema : Schema) (columns : List (List Char)) :
    List (List Char × List Char) :=
  (sortLenDesc columns).foldl (fun acc col =>
    let types := schemaColTypes schema col
    if types.length = 1 then acc ++ [(col, types.headD [])] else acc) []

/-- Python truthiness of the `schema` argument (`None` and `{}` are
falsy). -/
def schemaTruthy : Option Schema → Bool
  | none => false
  | some s => ¬s.isEmpty

/-- `_apply_identifier_replacements`: the schema phase (qualified
`alias.col` / `table.col` rewrites, then unambiguous bare columns to
their type), then table aliases, column aliases, tables, and the
remaining columns to `col_name` — each family applied longest name
first. -/
def apply_identifier_replacements (text : List Char) (tables : List (List Char))
    (table_alias_map col_alias_map : List (List Char × List Char))
    (columns : List (List Char)) (alias_to_table : List (List Char × List Char))
    (schema : Option Schema) : List Char :=
  let schemaList := (schema.getD [])
  let schemaOn := schemaTruthy schema
  let o1 :=
    if schemaOn then
      let oA := alias_to_table.foldl (fun o p =>
        schemaList.foldl (fun o e =>
          if e.1.1 = p.2 then
            subst (qualSubMatcher p.1 e.1.2 (p.1 ++ '.' :: e.2)) o
          else o) o) text
      let oB := tables.foldl (fun o t =>
        schemaList.foldl (fun o e =>
          if e.1.1 = t then
            subst (qualSubMatcher t e.1.2 (lit "table_name." ++ e.2)) o
          else o) o) oA
      (schemaReplacedCols schemaList columns).foldl (fun o p =>
        subst (wordSubMatcher p.1 p.2) o) oB
    else text
  let colsReplaced := (schemaReplacedCols schemaList columns).map (fun p => p.1)
  let o2 := (sortLenDesc (table_alias_map.map (fun p => p.1))).foldl (fun o a =>
    subst (wordSubMatcher a ((alistLookup table_alias_map a).getD [])) o) o1
  let o3 := (sortLenDesc (col_alias_map.map (fun p => p.1))).foldl (fun o a =>
    subst (wordSubMatcher a ((alistLookup col_alias_map a).getD [])) o) o2
  let o4 := (sortLenDesc tables).foldl (fun o t =>
    if alistContains table_alias_map t then o
    else subst (wordSubMatcher t (lit "table_name")) o) o3
  (sortLenDesc columns).foldl (fun o col =>
    if (upperStr col) = lit "NUM" ∨ (upperStr col) = lit "STR" ∨
        (upperStr col) = lit "DATE" ∨ (upperStr col) = lit "TABLE_NAME" ∨
        (upperStr col) = lit "COL_NAME" then o
    else if col = lit "num" ∨ col = lit "string" ∨ col = lit "date" ∨
        col = lit "boolean" then o
    else if isPlaceholderName (lit "table_alias_placeholder") col ∨
        isPlaceholderName (lit "col_alias_placeholder") col then o
    else if isPlaceholderName (lit "table_alias") col ∨
        isPlaceholderName (lit "column_alias") col then o
    else if alistContains col_alias_map col then o
    else if schemaOn ∧ colsReplaced.contains col then o
    else
      subst (wordSubMatcher col (lit "col_name"))
        (subst (dotSubMatcher col (lit "col_name")) o)) o4

/-! ## Top-level canonicalizers -/

/-- The concatenated non-comment text of a segmentation. -/
def nonCommentText (segments : List Seg) : List Char :=
  segJoin (segments.filter (fun s => ¬s.1))

/-- The per-span transform of `canonicalize_sql`: literal replacement
followed by identifier replacement with the global tables. -/
def canonicalize_segment (r : CollectResult)
    (tam cam : List (List Char × List Char)) (schema : Option Schema)
    (t : List Char) : List Char :=
  apply_identifier_replacements (replace_literals t) r.tables tam cam r.columns
    r.alias_to_table schema

/-- The per-span transform of `canonicalize_sql_bird`: BIRD literal
replacement followed by identifier replacement with `schema=None`. -/
def canonicalize_segment_bird (refs : List (List Char)) (r : CollectResult)
    (tam cam : List (List Char × List Char)) (t : List Char) : List Char :=
  apply_identifier_replacements (replace_literals_bird t refs) r.tables tam cam
    r.columns r.alias_to_table none

/-- `canonicalize_sql`: empty/whitespace-only input (or input whose
non-comment text is whitespace-only) is returned unchanged; otherwise
global replacement tables are built from the literal-replaced
concatenation of the non-comment spans, and each non-comment span is
literal-replaced and identifier-substituted, comments emitted
verbatim. -/
def canonicalize_sql (sql : List Char) (schema : Option Schema) : List Char :=
  if sql.all isSpaceChar then sql
  else
    let segments := split_comments sql
    if (nonCommentText segments).all isSpaceChar then sql
    else
      let out_flat := replace_literals (nonCommentText segments)
      let r := collect_identifiers_regex out_flat false
      let tam := numbered "table_alias_placeholder" r.table_alias_order
      let cam := numbered "col_alias_placeholder" r.col_alias_order
      segJoin (segments.map (fun s =>
        if s.1 then s else (false, canonicalize_segment r tam cam schema s.2)))

/-- `(schema_by_db or {}).get(db_id) or {}`. -/
def birdSchemaLookup : List (List Char × Schema) → List Char → Schema
  | [], _ => []
  | (k, v) :: rest, db => if k = db then v else birdSchemaLookup rest db

/-- `canonicalize_sql_bird`: identifiers are collected from the *raw*
non-comment text (`raw_sql=True`), boolean comparison rewrites run
before the lowercase literal replacement, the BIRD placeholder names
`table_alias{i}` / `column_alias{i}` are used, and the schema is *not*
passed to identifier replacement (`schema=None`). -/
def canonicalize_sql_bird (sql : List Char) (db_id : List Char)
    (schema_by_db : List (List Char × Schema)) : List Char :=
  if sql.all isSpaceChar then sql
  else
    let segments := split_comments sql
    if (nonCommentText segments).all isSpaceChar then sql
    else
      let schema := birdSchemaLookup schema_by_db db_id
      let r := collect_identifiers_regex (nonCommentText segments) true
      let refs := build_boolean_col_refs schema r.tables r.alias_to_table
      let tamB := numbered "table_alias" r.table_alias_order
      let camB := numbered "column_alias" r.col_alias_order
      segJoin (segments.map (fun s =>
        if s.1 then s else (false, canonicalize_segment_bird refs r tamB camB s.2)))

/-! ## String-level wrappers -/

def canonicalizeSqlStr (sql : String) (schema : Option Schema) : String :=
  String.mk (canonicalize_sql sql.data schema)

def canonicalizeSqlBirdStr (sql : String) (db_id : String)
    (schema_by_db : List (List Char × Schema)) : String :=
  String.mk (canonicalize_sql_bird sql.data db_id.data schema_by_db)

def replaceLiteralsStr (sql : String) : String :=
  String.mk (replace_literals sql.data)

/-! ## Batch processing (`process_bird23_jsonl`, `process_bird23_jsonl_bird`)

Each record `(sql, db_id)` of a batch is canonicalized on its own
against the immutable schema table; no state flows between records. -/

/-- `(schema_by_db or {}).get(db_id)` (which may be `None`). -/
def birdSchemaLookupOpt : List (List Char × Schema) → List Char → Option Schema
  | [], _ => none
  | (k, v) :: rest, db => if k = db then some v else birdSchemaLookupOpt rest db

/-- The canonicalization loop of `process_bird23_jsonl`: each record's
`canonical_sql` is `canonicalize_sql(SQL, schema=schema_by_db.get(db_id))`. -/
def process_records (records : List (String × String))
    (schema_by_db : List (List Char × Schema)) : List String :=
  records.map (fun q => canonicalizeSqlStr q.1 (birdSchemaLookupOpt schema_by_db q.2.data))

/-- The canonicalization loop of `process_bird23_jsonl_bird`: each
record's `canonical_sql` is `canonicalize_sql_bird(SQL, db_id, schema_by_db)`. -/
def process_records_bird (records : List (String × String))
    (schema_by_db : List (List Char × Schema)) : List String :=
  records.map (fun q => canonicalizeSqlBirdStr q.1 q.2 schema_by_db)

/-! ## Concrete schemas used in the statements -/

/-- A schema typing column `x` of table `t` as `binary` — one of the
five types (`num, string, date, boolean, binary`) the repository's
schema builder (`build_all_schemas_from_meaning.py`) produces. -/
def binarySchema : Schema := [((lit "t", lit "x"), lit "binary")]

/-- The spec's ambiguous-column schema: `(t1, code) = string`,
`(t2, code) = num`. -/
def codeSchema : Schema :=
  [((lit "t1", lit "code"), lit "string"), ((lit "t2", lit "code"), lit "num")]

/-- The spec's boolean-rewrite schema: database `db` with
`(t, is_active) = boolean`. -/
def isActiveSchemaByDb : List (List Char × Schema) :=
  [(lit "db", [((lit "t", lit "is_active"), lit "boolean")])]

/-- A database whose schema has only the non-boolean entry
`(t, x) = num`. -/
def numSchemaByDb : List (List Char × Schema) :=
  [(lit "d", [((lit "t", lit "x"), lit "num")])]

/-- The output can be written as one piece per input segment, in order,
with every comment segment's piece equal to its exact original text
(so comment spans appear verbatim and span order is preserved). -/
def CommentsPreserved (sql out : List Char) : Prop :=
  ∃ pieces : List (List Char),
    pieces.length = (split_comments sql).length ∧
    out = pieces.flatten ∧
    ∀ i : Nat, ((split_comments sql).getD i (false, [])).1 = true →
      pieces.getD i [] = ((split_comments sql).getD i (false, [])).2

/-! ## Lemmas: segmenter losslessness -/

theorem segJoin_nil : segJoin [] = [] := rfl

theorem segJoin_cons (s : Seg) (segs : List Seg) :
    segJoin (s :: segs) = s.2 ++ segJoin segs := by
  simp [segJoin]

theorem segJoin_append (a b : List Seg) :
    segJoin (a ++ b) = segJoin a ++ segJoin b := by
  simp [segJoin]

theorem segJoin_flushCode (acc : List Char) :
    segJoin (flushCode acc) = acc.reverse := by
  by_cases h : acc.isEmpty <;>
    simp_all [flushCode, segJoin, List.isEmpty_iff]

/-- Scan-loop invariant behind losslessness: the segments produced from
state `st` with pending span `acc` concatenate to `acc.reverse ++ cs`. -/
theorem split_comments_loop_join (st : ScanState) (cs acc : List Char) :
    segJoin (split_comments_loop st cs acc) = acc.reverse ++ cs := by
  induction st, cs, acc using split_comments_loop.induct <;>
    (try (simp_all [split_comments_loop, segJoin_cons, segJoin_append, segJoin_flushCode,
      segJoin_nil])) <;>
    (try split_ifs) <;>
    (try (simp_all [segJoin_cons, segJoin_append, segJoin_flushCode, segJoin_nil]))

/-! ## Lemmas: comment invariance of the assembler -/

theorem commentsPreserved_self (sql : List Char) : CommentsPreserved sql sql := by
  refine ⟨(split_comments sql).map (fun s => s.2), by simp, ?_, ?_⟩
  · have h := split_comments_loop_join .code sql []
    simp only [segJoin] at h
    simp only [split_comments]
    simpa using h.symm
  · intro i _
    simp [List.getD_eq_getElem?_getD, List.getElem?_map]
    cases h : (split_comments sql)[i]? <;> simp [h]

theorem commentsPreserved_assemble (sql : List Char) (g : List Char → List Char) :
    CommentsPreserved sql
      (segJoin ((split_comments sql).map (fun s => if s.1 then s else (false, g s.2)))) := by
  refine ⟨(split_comments sql).map (fun s => if s.1 then s.2 else g s.2), by simp, ?_, ?_⟩
  · simp only [segJoin, List.map_map]
    congr 1
    apply List.map_congr_left
    intro s _
    by_cases h : s.1 <;> simp [h]
  · intro i hc
    simp only [List.getD_eq_getElem?_getD, List.getElem?_map]
    cases h : (split_comments sql)[i]? with
    | none => simp [h, List.getD_eq_getElem?_getD] at hc ⊢
    | some s =>
      simp [h, List.getD_eq_getElem?_getD] at hc ⊢
      simp [hc]

/-! ## Lemmas: the literal normalizer leaves identifiers unchanged -/

theorem word_not_space {c : Char} (h : isWordChar c = true) : isSpaceChar c = false := by
  by_contra hs
  simp only [Bool.not_eq_false] at hs
  simp only [isSpaceChar, Bool.or_eq_true, decide_eq_true_eq] at hs
  rcases hs with ((((rfl | rfl) | rfl) | rfl) | rfl) | rfl <;>
    simp [isWordChar, newlineC] at h

theorem all_word_dropSpaces0 {l : List Char} (h : l.all isWordChar) :
    dropSpaces0 l = l := by
  cases l with
  | nil => rfl
  | cons c cs =>
    simp only [List.all_cons, Bool.and_eq_true] at h
    simp [dropSpaces0, List.dropWhile_cons, word_not_space h.1]

theorem dropCI_all_word {kw l r : List Char} (hl : l.all isWordChar)
    (h : dropCI kw l = some r) : r.all isWordChar := by
  induction kw generalizing l with
  | nil => simp [dropCI] at h; simpa [← h] using hl
  | cons p ps ih =>
    cases l with
    | nil => simp [dropCI] at h
    | cons c cs =>
      simp only [List.all_cons, Bool.and_eq_true] at hl
      by_cases hc : c.toLower = p.toLower
      · simp [dropCI, hc] at h
        exact ih hl.2 h
      · simp [dropCI, hc] at h

theorem tryDateKw_none {kws : List (List Char)} {l : List Char}
    (hl : l.all isWordChar) : tryDateKw kws l = none := by
  induction kws with
  | nil => rfl
  | cons kw kws ih =>
    cases hd : dropCI kw l with
    | none => simp [tryDateKw, hd, ih]
    | some r1 =>
      have hr1 : r1.all isWordChar := dropCI_all_word hl hd
      rw [tryDateKw, hd]
      dsimp only
      rw [all_word_dropSpaces0 hr1]
      cases r1 with
      | nil => simpa using ih
      | cons c cs =>
        simp only [List.all_cons, Bool.and_eq_true] at hr1
        have : c ≠ squoteC := by
          intro hq; rw [hq] at hr1; exact absurd hr1.1 (by decide)
        simpa [this] using ih

theorem subScan_id_aux (m : Matcher)
    (hm : ∀ l : List Char, l.all isWordChar → m true l = none) :
    ∀ (fuel : Nat) (l : List Char), l.all isWordChar → subScan m fuel true l = l := by
  intro fuel
  induction fuel with
  | zero => intro l _; rfl
  | succ n ih =>
    intro l hl
    cases l with
    | nil => rfl
    | cons c cs =>
      have hall := hl
      simp only [List.all_cons, Bool.and_eq_true] at hl
      simp [subScan, hm _ hall, hl.1, ih cs hl.2]

theorem subst_id (m : Matcher) {w : List Char}
    (hm : ∀ l : List Char, l.all isWordChar → m true l = none)
    (hhead : m false w = none) (hw : w.all isWordChar) : subst m w = w := by
  cases w with
  | nil => rfl
  | cons c cs =>
    simp only [List.all_cons, Bool.and_eq_true] at hw
    simp [subst, subScan, hhead, hw.1, subScan_id_aux m hm _ cs hw.2]

theorem word_ne_squote {c : Char} (h : isWordChar c = true) : c ≠ squoteC := by
  intro hq; rw [hq] at h; exact absurd h (by decide)

theorem word_ne_dquote {c : Char} (h : isWordChar c = true) : c ≠ dquoteC := by
  intro hq; rw [hq] at h; exact absurd h (by decide)

theorem word_ne_dot {c : Char} (h : isWordChar c = true) : c ≠ '.' := by
  intro hq; rw [hq] at h; exact absurd h (by decide)

theorem dateMatcher_true {repl : List Char} (l : List Char) :
    dateMatcher repl true l = none := by simp [dateMatcher]

theorem strMatcher_word {repl : List Char} {p : Bool} {l : List Char}
    (h : l.all isWordChar) : strMatcher repl p l = none := by
  cases l with
  | nil => rfl
  | cons c cs =>
    simp only [List.all_cons, Bool.and_eq_true] at h
    simp [strMatcher, word_ne_squote h.1]

theorem dqMatcher_word {repl : List Char} {p : Bool} {l : List Char}
    (h : l.all isWordChar) : dqMatcher repl p l = none := by
  cases l with
  | nil => rfl
  | cons c cs =>
    simp only [List.all_cons, Bool.and_eq_true] at h
    simp [dqMatcher, word_ne_dquote h.1]

theorem numMatcher_true {repl : List Char} (l : List Char) :
    numMatcher repl true l = none := by
  cases l <;> simp [numMatcher]

theorem num2Matcher_word {repl : List Char} {p : Bool} {l : List Char}
    (h : l.all isWordChar) : num2Matcher repl p l = none := by
  cases l with
  | nil => rfl
  | cons c cs =>
    simp only [List.all_cons, Bool.and_eq_true] at h
    simp [num2Matcher, word_ne_dot h.1]

/-- Identifier invariance of the literal normalizer: a token made of
word characters that does not start with a digit is left unchanged (in
particular a trailing digit of `col2` is never replaced). -/
theorem replace_literals_ident {c : Char} {cs : List Char}
    (hc : c.isDigit = false) (hall : (c :: cs).all isWordChar) :
    replace_literals (c :: cs) = c :: cs := by
  have hdate : subst (dateMatcher (lit "DATE")) (c :: cs) = c :: cs :=
    subst_id _ (fun l _ => dateMatcher_true l)
      (by simp [dateMatcher, tryDateKw_none hall]) hall
  have hstr : subst (strMatcher (lit "STR")) (c :: cs) = c :: cs :=
    subst_id _ (fun _ hl => strMatcher_word hl) (strMatcher_word hall) hall
  have hdq : subst (dqMatcher (lit "STR")) (c :: cs) = c :: cs :=
    subst_id _ (fun _ hl => dqMatcher_word hl) (dqMatcher_word hall) hall
  have hnum : subst (numMatcher (lit "NUM")) (c :: cs) = c :: cs :=
    subst_id _ (fun l _ => numMatcher_true l)
      (by simp [numMatcher, hc]) hall
  have hnum2 : subst (num2Matcher (lit "NUM")) (c :: cs) = c :: cs :=
    subst_id _ (fun _ hl => num2Matcher_word hl) (num2Matcher_word hall) hall
  simp [replace_literals, hdate, hstr, hdq, hnum, hnum2]

/-! ## Lemmas: schema substitution and alias bookkeeping -/

theorem foldl_preserve {α β : Type} {P : β → Prop} {f : β → α → β}
    (h : ∀ b a, P b → P (f b a)) :
    ∀ (l : List α) (b : β), P b → P (l.foldl f b) := by
  intro l
  induction l with
  | nil => intro b hb; exact hb
  | cons a l ih => intro b hb; exact ih (f b a) (h b a hb)

/-- A column name carrying two or more distinct types across the schema
is never placed on the schema-substitution list. -/
theorem schemaReplacedCols_ambiguous {schema : Schema} {columns : List (List Char)}
    {col : List Char} (h : 2 ≤ (schemaColTypes schema col).length) :
    col ∉ (schemaReplacedCols schema columns).map (fun p => p.1) := by
  have key : ∀ (l : List (List Char)) (acc : List (List Char × List Char)),
      col ∉ acc.map (fun p => p.1) →
      col ∉ (l.foldl (fun acc c =>
        let types := schemaColTypes schema c
        if types.length = 1 then acc ++ [(c, types.headD [])] else acc) acc).map
          (fun p => p.1) := by
    intro l
    induction l with
    | nil => intro acc hacc; exact hacc
    | cons c l ih =>
      intro acc hacc
      by_cases hc : (schemaColTypes schema c).length = 1
      · simp only [List.foldl_cons, hc, if_pos]
        apply ih
        simp only [List.map_append, List.mem_append]
        rintro (hmem | hmem)
        · exact hacc hmem
        · simp at hmem
          subst hmem
          omega
      · simpa only [List.foldl_cons, hc, if_neg, not_false_iff] using ih acc hacc
  exact key (sortLenDesc columns) [] (by simp)

theorem addUnique_nodup {x : List Char} {l : List (List Char)} (h : l.Nodup) :
    (addUnique x l).Nodup := by
  by_cases hc : l.contains x = true
  · rw [addUnique, if_pos hc]
    exact h
  · rw [addUnique, if_neg hc]
    have hx : x ∉ l := by simpa using hc
    simp [List.nodup_append, h, hx]

/-- The table-alias enumeration never records an alias twice, so the
`enumerate` numbering assigns each alias exactly one index. -/
theorem collect_order_nodup (sql : List Char) (raw : Bool) :
    (collect_identifiers_regex sql raw).table_alias_order.Nodup := by
  simp only [collect_identifiers_regex]
  apply foldl_preserve (P := fun (p : TablesAcc × List (List Char)) => p.1.order.Nodup)
  · intro b a hb
    dsimp only
    split_ifs <;> simp_all [addUnique_nodup]
  · apply foldl_preserve (P := fun (b : TablesAcc) => b.order.Nodup)
    · intro b a hb
      dsimp only
      exact hb
    · apply foldl_preserve (P := fun (b : TablesAcc) => b.order.Nodup)
      · intro b a hb
        dsimp only
        split_ifs <;> simp_all [addUnique_nodup]
      · apply foldl_preserve (P := fun (b : TablesAcc) => b.order.Nodup)
        · intro b a hb
          dsimp only
          split_ifs <;> simp_all [addUnique_nodup]
        · exact List.nodup_nil

/-- Boolean reference construction depends only on the boolean-typed
entries of the schema. -/
theorem build_boolean_col_refs_congr {s1 s2 : Schema}
    (h : booleanEntries s1 = booleanEntries s2) (tables : List (List Char))
    (a2t : List (List Char × List Char)) :
    build_boolean_col_refs s1 tables a2t = build_boolean_col_refs s2 tables a2t := by
  simp only [build_boolean_col_refs]
  rw [h]

/-! ## Lemmas: the boolean integer-comparison rewrite on digit strings -/

theorem digit_is_word {c : Char} (h : c.isDigit = true) : isWordChar c = true := by
  simp [isWordChar, Char.isAlphanum, h]

theorem dropWhile_space_digits {ds : List Char} (h : ds.all Char.isDigit) :
    ds.dropWhile isSpaceChar = ds := by
  cases ds with
  | nil => rfl
  | cons d ds' =>
    simp only [List.all_cons, Bool.and_eq_true] at h
    simp [List.dropWhile_cons, word_not_space (digit_is_word h.1)]

theorem takeWhile_digits_all {ds : List Char} (h : ds.all Char.isDigit) :
    ds.takeWhile Char.isDigit = ds := by
  induction ds with
  | nil => rfl
  | cons d ds' ih =>
    simp only [List.all_cons, Bool.and_eq_true] at h
    simp [List.takeWhile_cons, h.1, ih h.2]

theorem dropWhile_digits_all {ds : List Char} (h : ds.all Char.isDigit) :
    ds.dropWhile Char.isDigit = [] := by
  induction ds with
  | nil => rfl
  | cons d ds' ih =>
    simp only [List.all_cons, Bool.and_eq_true] at h
    simp [List.dropWhile_cons, h.1, ih h.2]

theorem span_digits_all {ds : List Char} (h : ds.all Char.isDigit) :
    ds.span Char.isDigit = (ds, []) := by
  rw [List.span_eq_take_drop, takeWhile_digits_all h, dropWhile_digits_all h]

theorem subScan_nil (m : Matcher) (fuel : Nat) (p : Bool) : subScan m fuel p [] = [] := by
  cases fuel <;> rfl

/-- At a comparison `is_active = <digits>`, the integer pattern
`\b{ref}\s*=\s*(\d+)\b` matches and rewrites the whole comparison to
`is_active = boolean`, for every nonempty digit string. -/
theorem boolRefA_digit_match {d : Char} {ds' : List Char}
    (hd : d.isDigit = true) (hall : ds'.all Char.isDigit) :
    boolRefAMatcher (lit "is_active") false
      ('i' :: 's' :: '_' :: 'a' :: 'c' :: 't' :: 'i' :: 'v' :: 'e' :: ' ' :: '=' :: ' ' :: d :: ds') =
      some (lit "is_active = boolean", true, []) := by
  have hspan : (d :: ds').span Char.isDigit = (d :: ds', []) :=
    span_digits_all (by simp [hd, hall])
  have hds : List.dropWhile isSpaceChar (d :: ds') = d :: ds' :=
    dropWhile_space_digits (by simp [hd, hall])
  have hA : (lit "is_active").isEmpty = false := rfl
  have hB : wordBoundary false
      ('i' :: 's' :: '_' :: 'a' :: 'c' :: 't' :: 'i' :: 'v' :: 'e' :: ' ' :: '=' :: ' ' :: d :: ds') = true := rfl
  simp only [boolRefAMatcher]
  rw [if_neg (by simp [hA, hB])]
  have hdropLit : dropLit (lit "is_active")
      ('i' :: 's' :: '_' :: 'a' :: 'c' :: 't' :: 'i' :: 'v' :: 'e' :: ' ' :: '=' :: ' ' :: d :: ds') =
      some (' ' :: '=' :: ' ' :: d :: ds') := rfl
  rw [hdropLit]
  dsimp only
  have hsp0 : dropSpaces0 (' ' :: '=' :: ' ' :: d :: ds') = '=' :: ' ' :: d :: ds' := rfl
  rw [hsp0]
  dsimp only
  rw [if_pos rfl]
  have hsp1 : dropSpaces0 (' ' :: d :: ds') = d :: ds' := by
    simp [dropSpaces0, List.dropWhile_cons, hds, isSpaceChar]
  rw [hsp1, hspan]
  simp
  exact ⟨rfl, by decide⟩

/-- Substitution-level version: the whole text `is_active = <digits>` is
rewritten to `is_active = boolean` by the first boolean-reference
substitution, for every nonempty digit string. -/
theorem boolRefA_digit_rewrite {ds : List Char} (h1 : ds ≠ [])
    (h2 : ds.all Char.isDigit) :
    subst (boolRefAMatcher (lit "is_active")) (lit "is_active = " ++ ds) =
      lit "is_active = boolean" := by
  obtain ⟨d, ds', rfl⟩ : ∃ d ds', ds = d :: ds' := by
    cases ds with
    | nil => exact absurd rfl h1
    | cons d ds' => exact ⟨d, ds', rfl⟩
  simp only [List.all_cons, Bool.and_eq_true] at h2
  have hcons : lit "is_active = " ++ d :: ds' =
      'i' :: 's' :: '_' :: 'a' :: 'c' :: 't' :: 'i' :: 'v' :: 'e' :: ' ' :: '=' :: ' ' :: d :: ds' := rfl
  rw [subst, hcons]
  simp only [subScan]
  rw [boolRefA_digit_match h2.1 h2.2]
  simp [subScan_nil]

/-! ## Claims -/

/-- C1: for every input SQL string, concatenating the texts of the
spans produced by the Segmenter (`_split_comments`), in order, yields
exactly the original input string — segmentation is lossless and
total. -/
theorem segmenter_lossless (sql : String) :
    segJoin (split_comments sql.data) = sql.data := by
  simpa using split_comments_loop_join .code sql.data []

/-- C2: for every input SQL string, each comment span identified by the
Segmenter appears character-for-character unmodified in the output of
`canonicalize_sql` and of `canonicalize_sql_bird`, and the relative
order of comment and non-comment spans is preserved: the output splits
into one piece per input segment, in order, with every comment
segment's piece equal to its exact original text. -/
theorem canonicalize_comment_invariance (sql : String) (schema : Option Schema)
    (db : String) (sbd : List (List Char × Schema)) :
    CommentsPreserved sql.data (canonicalize_sql sql.data schema) ∧
    CommentsPreserved sql.data (canonicalize_sql_bird sql.data db.data sbd) := by
  constructor
  · simp only [canonicalize_sql]
    split_ifs with h1 h2
    · exact commentsPreserved_self _
    · exact commentsPreserved_self _
    · exact commentsPreserved_assemble sql.data (canonicalize_segment _ _ _ _)
  · simp only [canonicalize_sql_bird]
    split_ifs with h1 h2
    · exact commentsPreserved_self _
    · exact commentsPreserved_self _
    · exact commentsPreserved_assemble sql.data (canonicalize_segment_bird _ _ _ _)

/-- C3 (code bug): canonicalization is not idempotent.  With the schema
entry `(t, x) ↦ binary` — `binary` being one of the five schema types
the repository's own schema builder emits — the first pass over the
ordinary query `SELECT x FROM t` rewrites column `x` to the type tag
`binary`, and a second pass rewrites that tag to `col_name`, because
`binary` is missing from every protected-token list of the collector
and of the replacement filters (unlike `num`, `string`, `date`,
`boolean`), so `f (f s) ≠ f s`. -/
theorem canonicalize_idempotence_binary_bug :
    canonicalizeSqlStr "SELECT x FROM t" (some binarySchema) =
      "SELECT binary FROM table_name" ∧
    canonicalizeSqlStr "SELECT binary FROM table_name" (some binarySchema) =
      "SELECT col_name FROM table_name" ∧
    canonicalizeSqlStr (canonicalizeSqlStr "SELECT x FROM t" (some binarySchema))
        (some binarySchema) ≠
      canonicalizeSqlStr "SELECT x FROM t" (some binarySchema) := by
  have hp1 : canonicalizeSqlStr "SELECT x FROM t" (some binarySchema) =
      "SELECT binary FROM table_name" := by decide
  have hp2 : canonicalizeSqlStr "SELECT binary FROM table_name" (some binarySchema) =
      "SELECT col_name FROM table_name" := by decide
  refine ⟨hp1, hp2, ?_⟩
  rw [hp1, hp2]
  decide

/-- C4 (code bug): inside an open single-quoted literal a doubled quote
`''` does not keep the scanner in the in-quote state.  The lookahead
check skips the first quote of the pair, but the second quote is then
re-examined with its own lookahead and closes the literal, so a `--`
appearing later inside the same literal is classified as a comment.
Under standard SQL escaping `x = 'a''--b\n' z` contains one literal
`a'--b\n` and no comment, yet the segmenter emits the comment span
`--b\n`. -/
theorem split_comments_doubled_quote_bug :
    split_comments (lit "x = 'a''--b\n' z") =
      [(false, lit "x = 'a''"), (true, lit "--b\n"), (false, lit "' z")] := by
  decide

/-- C5 counterexample: a leading-dot decimal literal is not mapped to
the single token `NUM`; only its digit run is replaced and the dot
survives (`.5` becomes `.NUM`), refuting the claim that every
leading-dot decimal becomes `NUM`. -/
theorem replace_literals_leading_dot_counterexample :
    replaceLiteralsStr "WHERE x = .5" = "WHERE x = .NUM" ∧
    replaceLiteralsStr "WHERE x = .5" ≠ "WHERE x = NUM" := by
  have h : replaceLiteralsStr "WHERE x = .5" = "WHERE x = .NUM" := by decide
  refine ⟨h, ?_⟩
  rw [h]
  decide

/-- C5 (amended): generic-mode literal normalization maps date-like
literals `DATE|TIMESTAMP|TIME|INTERVAL '...'` (case-insensitive) to
`DATE`, single- and double-quoted string literals to `STR`, and whole
word-bounded integer/decimal/scientific numerals to `NUM`; a token of
word characters not starting with a digit (such as `col2`) is never
touched; a leading-dot decimal keeps its dot, only the digit run
becoming `NUM` (`.5` → `.NUM`). -/
theorem replace_literals_fidelity (c : Char) (cs : List Char)
    (h1 : c.isDigit = false) (h2 : (c :: cs).all isWordChar) :
    replace_literals (c :: cs) = c :: cs ∧
    replaceLiteralsStr "SELECT * FROM t WHERE x = 5" = "SELECT * FROM t WHERE x = NUM" ∧
    replaceLiteralsStr "WHERE name = 'Alice'" = "WHERE name = STR" ∧
    replaceLiteralsStr "WHERE d = DATE '2020-01-01'" = "WHERE d = DATE" ∧
    replaceLiteralsStr "WHERE ts < timestamp '2020-01-01 12:00:00'" = "WHERE ts < DATE" ∧
    replaceLiteralsStr "x = 'a' AND y = \"b\"" = "x = STR AND y = STR" ∧
    replaceLiteralsStr "z = 1.5e10 AND w = 12.25 AND v = .5" =
      "z = NUM AND w = NUM AND v = .NUM" ∧
    replaceLiteralsStr "SELECT col2 FROM t" = "SELECT col2 FROM t" := by
  refine ⟨replace_literals_ident h1 h2, by decide, by decide, by decide, by decide,
    by decide, by decide, by decide⟩

theorem replace_literals_fidelity_witness :
    replace_literals (lit "col2") = lit "col2" :=
  (replace_literals_fidelity 'c' (lit "ol2") (by decide) (by decide)).1

/-- C6 counterexample: with schema `(t, is_active) = boolean`, the
comparison `is_active = 1e5` has a numeric literal, but the boolean
rewrite pattern only accepts plain digit strings (`(\d+)\b` fails
inside `1e5`), so the literal falls through to the generic rewrite and
becomes `num`, not `boolean` — refuting "every comparison … with a
numeric literal". -/
theorem bird_boolean_scientific_counterexample :
    canonicalizeSqlBirdStr "SELECT * FROM t WHERE is_active = 1e5" "db"
        isActiveSchemaByDb =
      "SELECT * FROM table_name WHERE col_name = num" ∧
    canonicalizeSqlBirdStr "SELECT * FROM t WHERE is_active = 1e5" "db"
        isActiveSchemaByDb ≠
      "SELECT * FROM table_name WHERE col_name = boolean" := by
  have h : canonicalizeSqlBirdStr "SELECT * FROM t WHERE is_active = 1e5" "db"
      isActiveSchemaByDb = "SELECT * FROM table_name WHERE col_name = num" := by decide
  refine ⟨h, ?_⟩
  rw [h]
  decide

/-- C6 (amended): in boolean-aware mode with schema
`(t, is_active) = boolean`, a comparison with `=` between the boolean
column reference and a *plain integer* (digit-string) literal or a
*single-quoted string* literal is rewritten to the tag `boolean` before
the generic literal replacement, in either operand order; the integer
pattern fires for every nonempty digit string (first conjunct).
Decimal/scientific numerals and double-quoted strings are not
pre-empted and fall through to the generic `num`/`string` rewrite. -/
theorem bird_boolean_rewrite (ds : List Char) (h1 : ds ≠ [])
    (h2 : ds.all Char.isDigit) :
    subst (boolRefAMatcher (lit "is_active")) (lit "is_active = " ++ ds) =
      lit "is_active = boolean" ∧
    canonicalizeSqlBirdStr "SELECT * FROM t WHERE is_active = 1" "db"
        isActiveSchemaByDb =
      "SELECT * FROM table_name WHERE col_name = boolean" ∧
    canonicalizeSqlBirdStr "SELECT * FROM t WHERE 1 = is_active" "db"
        isActiveSchemaByDb =
      "SELECT * FROM table_name WHERE boolean = col_name" ∧
    canonicalizeSqlBirdStr "SELECT * FROM t WHERE is_active = 'true'" "db"
        isActiveSchemaByDb =
      "SELECT * FROM table_name WHERE col_name = boolean" ∧
    canonicalizeSqlBirdStr "SELECT * FROM t WHERE 'true' = is_active" "db"
        isActiveSchemaByDb =
      "SELECT * FROM table_name WHERE boolean = col_name" := by
  refine ⟨boolRefA_digit_rewrite h1 h2, by decide, by decide, by decide, by decide⟩

theorem bird_boolean_rewrite_witness :
    subst (boolRefAMatcher (lit "is_active")) (lit "is_active = " ++ lit "1") =
      lit "is_active = boolean" :=
  (bird_boolean_rewrite (lit "1") (by decide) (by decide)).1

/-- C7: when a schema is supplied, a bare column name is type-rewritten
only if it carries exactly one type across the whole schema: a column
carrying two or more distinct types is never placed on the
schema-substitution list (first conjunct), and on the spec's scenario —
`(t1, code) = string`, `(t2, code) = num` — the bare reference `code`
canonicalizes to the generic `col_name` placeholder, not a type tag. -/
theorem ambiguous_column_conservatism (schema : Schema)
    (columns : List (List Char)) (col : List Char)
    (h : 2 ≤ (schemaColTypes schema col).length) :
    col ∉ (schemaReplacedCols schema columns).map (fun p => p.1) ∧
    canonicalizeSqlStr "SELECT code FROM t1" (some codeSchema) =
      "SELECT col_name FROM table_name" :=
  ⟨schemaReplacedCols_ambiguous h, by decide⟩

theorem ambiguous_column_conservatism_witness :
    (lit "code") ∉ (schemaReplacedCols codeSchema [lit "code"]).map (fun p => p.1) ∧
    canonicalizeSqlStr "SELECT code FROM t1" (some codeSchema) =
      "SELECT col_name FROM table_name" :=
  ambiguous_column_conservatism codeSchema [lit "code"] (lit "code") (by decide)

/-- C8 counterexample: table aliases are *not* numbered by first
appearance in the query text.  In
`SELECT b.x FROM t1 b JOIN t2 AS a ON b.x = a.y` the alias `b` appears
before `a`, so the claim assigns `b` index 0; but the collector
processes all explicit-`AS` matches before implicit ones, so `a` gets
`table_alias_placeholder0` and `b` gets `table_alias_placeholder1`. -/
theorem alias_numbering_counterexample :
    canonicalizeSqlStr "SELECT b.x FROM t1 b JOIN t2 AS a ON b.x = a.y" none =
      "SELECT table_alias_placeholder1.col_name FROM table_name table_alias_placeholder1 JOIN table_name AS table_alias_placeholder0 ON table_alias_placeholder1.col_name = table_alias_placeholder0.col_name" ∧
    canonicalizeSqlStr "SELECT b.x FROM t1 b JOIN t2 AS a ON b.x = a.y" none ≠
      "SELECT table_alias_placeholder0.col_name FROM table_name table_alias_placeholder0 JOIN table_name AS table_alias_placeholder1 ON table_alias_placeholder0.col_name = table_alias_placeholder1.col_name" := by
  have h : canonicalizeSqlStr "SELECT b.x FROM t1 b JOIN t2 AS a ON b.x = a.y" none =
      "SELECT table_alias_placeholder1.col_name FROM table_name table_alias_placeholder1 JOIN table_name AS table_alias_placeholder0 ON table_alias_placeholder1.col_name = table_alias_placeholder0.col_name" := by
    decide
  refine ⟨h, ?_⟩
  rw [h]
  decide

/-- C8 (amended): table aliases receive sequential placeholder indices
in the order they are *recorded* by the collector — all explicit `AS`
aliases in text order, then implicit (no-`AS`) aliases in text order,
then qualifiers inferred from `q.c` references — each alias recorded
exactly once (the enumeration list is duplicate-free, first conjunct);
within one detection rule this is first-appearance order, so the spec's
example `SELECT a.x FROM t1 a JOIN t2 b ON a.id = b.id` (both aliases
implicit) assigns `a` index 0 and `b` index 1; with mixed rules the
`AS` alias is numbered first (third conjunct). -/
theorem alias_numbering (sql : List Char) (raw : Bool) :
    (collect_identifiers_regex sql raw).table_alias_order.Nodup ∧
    canonicalizeSqlStr "SELECT a.x FROM t1 a JOIN t2 b ON a.id = b.id" none =
      "SELECT table_alias_placeholder0.col_name FROM table_name table_alias_placeholder0 JOIN table_name table_alias_placeholder1 ON table_alias_placeholder0.col_name = table_alias_placeholder1.col_name" ∧
    (collect_identifiers_regex (lit "SELECT b.x FROM t1 b JOIN t2 AS a ON b.x = a.y")
        false).table_alias_order = [lit "a", lit "b"] :=
  ⟨collect_order_nodup sql raw, by decide, by decide⟩

/-- C9: canonicalization is a pure function of the record's own
`(SQL, schema)` pair: in a batch, the output at a record's position is
exactly the canonicalization of that record, whatever other records
precede or follow it (no shared state between records). -/
theorem canonicalize_batch_independence (pre post : List (String × String))
    (r : String × String) (sbd : List (List Char × Schema)) :
    (process_records (pre ++ r :: post) sbd)[pre.length]? =
      some (canonicalizeSqlStr r.1 (birdSchemaLookupOpt sbd r.2.data)) ∧
    (process_records_bird (pre ++ r :: post) sbd)[pre.length]? =
      some (canonicalizeSqlBirdStr r.1 r.2 sbd) := by
  constructor <;>
    simp [process_records, process_records_bird, List.map_append,
      List.getElem?_append_right, List.getElem_append_right]

/-- C10: in boolean-aware mode the schema is never used for column
typing: two schema tables with the same boolean-typed entries give
identical outputs for every query (the schema influences the result
only through the boolean comparison rewrite), and a non-boolean entry
`(t, x) = num` leaves the column as `col_name`, never a type tag. -/
theorem bird_schema_only_boolean (sql db : String)
    (s1 s2 : List (List Char × Schema))
    (h : booleanEntries (birdSchemaLookup s1 db.data) =
      booleanEntries (birdSchemaLookup s2 db.data)) :
    canonicalize_sql_bird sql.data db.data s1 =
      canonicalize_sql_bird sql.data db.data s2 ∧
    canonicalizeSqlBirdStr "SELECT x FROM t" "d" numSchemaByDb =
      "SELECT col_name FROM table_name" := by
  constructor
  · simp only [canonicalize_sql_bird]
    rw [build_boolean_col_refs_congr h]
  · decide

theorem bird_schema_only_boolean_witness :
    canonicalize_sql_bird (lit "SELECT x FROM t") (lit "d") numSchemaByDb =
      canonicalize_sql_bird (lit "SELECT x FROM t") (lit "d") [] :=
  (bird_schema_only_boolean "SELECT x FROM t" "d" numSchemaByDb [] (by decide)).1

end SqlCanon
